import Mathlib

set_option maxRecDepth 8000

/-!
Shallow embedding of `src/core/channel/channel_stack.c`, the gRPC
channel/call filter-stack core.

Memory is modelled by byte addresses (`Nat`).  Every struct size and the
platform alignment constant are parameters, collected in `Platform`, so
theorems quantify over all platform layouts.  The C expression
`((x) + GPR_MAX_ALIGNMENT - 1) & ~(GPR_MAX_ALIGNMENT - 1)` computed on
`size_t` is modelled with `Nat.ldiff` (bitwise and-not, width generic),
which agrees with the machine computation whenever `x + GPR_MAX_ALIGNMENT
- 1` fits in the word.  Filter hooks are external function pointers; an
invocation of a hook is modelled as a trace event recording the element
address passed to it and the filter whose hook runs.
-/

/-- Platform layout constants: `GPR_MAX_ALIGNMENT` and the `sizeof` of the
four structs whose memory layout `channel_stack.c` computes. -/
structure Platform where
  GPR_MAX_ALIGNMENT : Nat
  sizeof_grpc_channel_stack : Nat
  sizeof_grpc_channel_element : Nat
  sizeof_grpc_call_stack : Nat
  sizeof_grpc_call_element : Nat
deriving Repr, DecidableEq

/-- `grpc_channel_filter`, as used by `channel_stack.c`: the two declared
state sizes (`filters[i]->sizeof_channel_data`, `->sizeof_call_data`) and
the filter's `name`.  The six function-pointer hooks are behaviourally
opaque; their invocations appear as trace events. -/
structure grpc_channel_filter where
  sizeof_call_data : Nat
  sizeof_channel_data : Nat
  name : String
deriving Repr, DecidableEq, Inhabited

/-- `ROUND_UP_TO_ALIGNMENT_SIZE(x)`:
`(((x) + GPR_MAX_ALIGNMENT - 1) & ~(GPR_MAX_ALIGNMENT - 1))`. -/
def ROUND_UP_TO_ALIGNMENT_SIZE (P : Platform) (x : Nat) : Nat :=
  Nat.ldiff (x + P.GPR_MAX_ALIGNMENT - 1) (P.GPR_MAX_ALIGNMENT - 1)

/-- `grpc_channel_stack_size`: starts from aligned header plus aligned
element table, then the loop adds each filter's aligned channel-data
size. -/
def grpc_channel_stack_size (P : Platform)
    (filters : List grpc_channel_filter) : Nat :=
  filters.foldl
    (fun size f => size + ROUND_UP_TO_ALIGNMENT_SIZE P f.sizeof_channel_data)
    (ROUND_UP_TO_ALIGNMENT_SIZE P P.sizeof_grpc_channel_stack +
      ROUND_UP_TO_ALIGNMENT_SIZE P
        (filters.length * P.sizeof_grpc_channel_element))

/-- The `GPR_ASSERT` in `grpc_channel_stack_size`:
`(GPR_MAX_ALIGNMENT & (GPR_MAX_ALIGNMENT - 1)) == 0`. -/
def grpc_channel_stack_size_assert_holds (P : Platform) : Prop :=
  P.GPR_MAX_ALIGNMENT &&& (P.GPR_MAX_ALIGNMENT - 1) = 0

/-- `CHANNEL_ELEMS_FROM_STACK(stk)`: address of the channel-element table,
`(char *)stk + ROUND_UP_TO_ALIGNMENT_SIZE(sizeof(grpc_channel_stack))`. -/
def CHANNEL_ELEMS_FROM_STACK (P : Platform) (stk : Nat) : Nat :=
  stk + ROUND_UP_TO_ALIGNMENT_SIZE P P.sizeof_grpc_channel_stack

/-- `CALL_ELEMS_FROM_STACK(stk)`: address of the call-element table. -/
def CALL_ELEMS_FROM_STACK (P : Platform) (stk : Nat) : Nat :=
  stk + ROUND_UP_TO_ALIGNMENT_SIZE P P.sizeof_grpc_call_stack

/-- `grpc_channel_stack_element`: `CHANNEL_ELEMS_FROM_STACK(stack) + index`
(element-pointer arithmetic scales by `sizeof(grpc_channel_element)`). -/
def grpc_channel_stack_element (P : Platform) (channel_stack index : Nat) :
    Nat :=
  CHANNEL_ELEMS_FROM_STACK P channel_stack +
    index * P.sizeof_grpc_channel_element

/-- `grpc_call_stack_element`: `CALL_ELEMS_FROM_STACK(stack) + index`. -/
def grpc_call_stack_element (P : Platform) (call_stack index : Nat) : Nat :=
  CALL_ELEMS_FROM_STACK P call_stack + index * P.sizeof_grpc_call_element

/-- `grpc_channel_stack_from_top_element`: subtract the aligned channel
stack header size from the element address. -/
def grpc_channel_stack_from_top_element (P : Platform) (elem : Nat) : Nat :=
  elem - ROUND_UP_TO_ALIGNMENT_SIZE P P.sizeof_grpc_channel_stack

/-- `grpc_call_stack_from_top_element`: subtract the aligned call stack
header size from the element address. -/
def grpc_call_stack_from_top_element (P : Platform) (elem : Nat) : Nat :=
  elem - ROUND_UP_TO_ALIGNMENT_SIZE P P.sizeof_grpc_call_stack

/-- A `grpc_channel_element`: its `filter` reference and the address
stored in `channel_data`. -/
structure grpc_channel_element where
  filter : grpc_channel_filter
  channel_data : Nat
deriving Repr, DecidableEq, Inhabited

/-- The `grpc_channel_stack` header (`count`, `call_stack_size`) together
with the in-memory region state used by `channel_stack.c`: the base
address of the allocation and the contents of the element table that
follows the header. -/
structure grpc_channel_stack where
  base : Nat
  count : Nat
  call_stack_size : Nat
  elems : List grpc_channel_element
deriving Repr, DecidableEq, Inhabited

/-- A `grpc_call_element`: filter reference, shared `channel_data`
pointer, and this call's `call_data` pointer. -/
structure grpc_call_element where
  filter : grpc_channel_filter
  channel_data : Nat
  call_data : Nat
deriving Repr, DecidableEq, Inhabited

/-- The `grpc_call_stack` header (`count`) plus base address and element
table contents. -/
structure grpc_call_stack where
  base : Nat
  count : Nat
  elems : List grpc_call_element
deriving Repr, DecidableEq, Inhabited

/-- `grpc_channel_stack_last_element`: element at index `count - 1`. -/
def grpc_channel_stack_last_element (P : Platform)
    (channel_stack : grpc_channel_stack) : Nat :=
  grpc_channel_stack_element P channel_stack.base (channel_stack.count - 1)

/-- One invocation of
`filter->init_channel_elem(&elems[i], args, metadata_context, i == 0,
i == (filter_count - 1))`; `args` and the metadata context are opaque
pass-throughs and are not recorded. -/
structure InitChannelElemCall where
  elem_addr : Nat
  filter : grpc_channel_filter
  is_first : Bool
  is_last : Bool
deriving Repr, DecidableEq, Inhabited

/-- State produced by the init loop of `grpc_channel_stack_init`. -/
structure ChannelLoopOut where
  elems : List grpc_channel_element
  user_data : Nat
  call_size : Nat
  trace : List InitChannelElemCall
deriving Repr, DecidableEq

/-- The `for (i = 0; i < filter_count; i++)` loop of
`grpc_channel_stack_init`, recursing over the remaining filters; `i` is
the current index and `n` the total `filter_count`. -/
def channelInitLoop (P : Platform) (elemsBase n : Nat) :
    List grpc_channel_filter → Nat → Nat → Nat → ChannelLoopOut
  | [], _, user_data, call_size => ⟨[], user_data, call_size, []⟩
  | f :: rest, i, user_data, call_size =>
    let out := channelInitLoop P elemsBase n rest (i + 1)
      (user_data + ROUND_UP_TO_ALIGNMENT_SIZE P f.sizeof_channel_data)
      (call_size + ROUND_UP_TO_ALIGNMENT_SIZE P f.sizeof_call_data)
    { elems := { filter := f, channel_data := user_data } :: out.elems,
      user_data := out.user_data,
      call_size := out.call_size,
      trace := { elem_addr := elemsBase + i * P.sizeof_grpc_channel_element,
                 filter := f,
                 is_first := i == 0,
                 is_last := i == n - 1 } :: out.trace }

/-- Everything `grpc_channel_stack_init` produces: the initialized stack
state, the final `user_data` cursor, and the `init_channel_elem`
invocation trace. -/
structure ChannelStackInitResult where
  stack : grpc_channel_stack
  user_data_end : Nat
  init_trace : List InitChannelElemCall
deriving Repr, DecidableEq

/-- `grpc_channel_stack_init` for a stack placed at address `stackBase`. -/
def grpc_channel_stack_init (P : Platform)
    (filters : List grpc_channel_filter) (stackBase : Nat) :
    ChannelStackInitResult :=
  let elems := CHANNEL_ELEMS_FROM_STACK P stackBase
  let user_data := elems +
    ROUND_UP_TO_ALIGNMENT_SIZE P
      (filters.length * P.sizeof_grpc_channel_element)
  let call_size :=
    ROUND_UP_TO_ALIGNMENT_SIZE P P.sizeof_grpc_call_stack +
      ROUND_UP_TO_ALIGNMENT_SIZE P
        (filters.length * P.sizeof_grpc_call_element)
  let out := channelInitLoop P elems filters.length filters 0 user_data
    call_size
  { stack := { base := stackBase, count := filters.length,
               call_stack_size := out.call_size, elems := out.elems },
    user_data_end := out.user_data,
    init_trace := out.trace }

/-- The two `GPR_ASSERT`s at the end of `grpc_channel_stack_init`:
`user_data > (char *)stack` and
`(gpr_uintptr)(user_data - (char *)stack) == grpc_channel_stack_size(...)`. -/
def grpc_channel_stack_init_asserts (P : Platform)
    (filters : List grpc_channel_filter) (stackBase : Nat) : Prop :=
  stackBase < (grpc_channel_stack_init P filters stackBase).user_data_end ∧
    (grpc_channel_stack_init P filters stackBase).user_data_end - stackBase
      = grpc_channel_stack_size P filters

/-- One invocation of
`channel_elems[i].filter->destroy_channel_elem(&channel_elems[i])`. -/
structure DestroyChannelElemCall where
  elem_addr : Nat
  filter : grpc_channel_filter
deriving Repr, DecidableEq

/-- `grpc_channel_stack_destroy`: for `i` in `0 .. count-1`, invoke
`channel_elems[i].filter->destroy_channel_elem(&channel_elems[i])`; the
result is the invocation trace, in the order the calls are issued. -/
def grpc_channel_stack_destroy (P : Platform)
    (stack : grpc_channel_stack) : List DestroyChannelElemCall :=
  (List.range stack.count).map fun i =>
    { elem_addr := grpc_channel_stack_element P stack.base i,
      filter := (stack.elems.getD i default).filter }

/-- One invocation of `call_elems[i].filter->init_call_elem(&call_elems[i],
transport_server_data, initial_op)`; the two opaque pass-through
arguments are not recorded. -/
structure InitCallElemCall where
  elem_addr : Nat
  filter : grpc_channel_filter
deriving Repr, DecidableEq, Inhabited

/-- State produced by the init loop of `grpc_call_stack_init`. -/
structure CallLoopOut where
  elems : List grpc_call_element
  user_data : Nat
  trace : List InitCallElemCall
deriving Repr, DecidableEq

/-- The `for (i = 0; i < count; i++)` loop of `grpc_call_stack_init`:
the first `Nat` argument is the remaining iteration count, the second the
current index `i` (the C loop reads `channel_elems[i]` from memory, hence
the indexed `getD` lookup). -/
def callInitLoop (P : Platform) (chanElems : List grpc_channel_element)
    (elemsBase : Nat) : Nat → Nat → Nat → CallLoopOut
  | 0, _, user_data => ⟨[], user_data, []⟩
  | fuel + 1, i, user_data =>
    let ce := chanElems.getD i default
    let out := callInitLoop P chanElems elemsBase fuel (i + 1)
      (user_data + ROUND_UP_TO_ALIGNMENT_SIZE P ce.filter.sizeof_call_data)
    { elems := { filter := ce.filter, channel_data := ce.channel_data,
                 call_data := user_data } :: out.elems,
      user_data := out.user_data,
      trace := { elem_addr := elemsBase + i * P.sizeof_grpc_call_element,
                 filter := ce.filter } :: out.trace }

/-- Everything `grpc_call_stack_init` produces. -/
structure CallStackInitResult where
  stack : grpc_call_stack
  user_data_end : Nat
  init_trace : List InitCallElemCall
deriving Repr, DecidableEq

/-- `grpc_call_stack_init` on channel stack `channel_stack`, building the
call stack at address `callBase`. -/
def grpc_call_stack_init (P : Platform) (channel_stack : grpc_channel_stack)
    (callBase : Nat) : CallStackInitResult :=
  let count := channel_stack.count
  let call_elems := CALL_ELEMS_FROM_STACK P callBase
  let user_data := call_elems +
    ROUND_UP_TO_ALIGNMENT_SIZE P (count * P.sizeof_grpc_call_element)
  let out := callInitLoop P channel_stack.elems call_elems count 0 user_data
  { stack := { base := callBase, count := count, elems := out.elems },
    user_data_end := out.user_data,
    init_trace := out.trace }

/-- One invocation of `elems[i].filter->destroy_call_elem(&elems[i])`. -/
structure DestroyCallElemCall where
  elem_addr : Nat
  filter : grpc_channel_filter
deriving Repr, DecidableEq

/-- `grpc_call_stack_destroy`: the `destroy_call_elem` invocation trace,
in issue order. -/
def grpc_call_stack_destroy (P : Platform) (stack : grpc_call_stack) :
    List DestroyCallElemCall :=
  (List.range stack.count).map fun i =>
    { elem_addr := grpc_call_stack_element P stack.base i,
      filter := (stack.elems.getD i default).filter }

/-- `grpc_channel_op`, as used by `channel_stack.c`: only the signed `dir`
field is read here; the rest of the payload is opaque. -/
structure grpc_channel_op where
  dir : Int
deriving Repr, DecidableEq

/-- The observable outcome of `grpc_channel_next_op`: the address of the
element whose `channel_op` handler is invoked, the `from_elem` passed to
it, and the operation. -/
structure ChannelOpInvocation where
  target_elem : Nat
  from_elem : Nat
  op : grpc_channel_op
deriving Repr, DecidableEq

/-- `grpc_channel_next_op`: `next_elem = elem + op->dir` (element-pointer
arithmetic, signed), then
`next_elem->filter->channel_op(next_elem, elem, op)`. -/
def grpc_channel_next_op (P : Platform) (elem : Nat)
    (op : grpc_channel_op) : ChannelOpInvocation :=
  { target_elem :=
      ((elem : Int) + op.dir * (P.sizeof_grpc_channel_element : Int)).toNat,
    from_elem := elem,
    op := op }

/-- Modelled from the spec: `grpc_transport_op` is declared outside this
file; `channel_stack.c` writes only `cancel_with_status`, and the spec
says cancellation "constructs a zeroed operation object carrying a
cancellation status".  The remaining struct contents are abstracted into
two zeroable payload words. -/
structure grpc_transport_op where
  cancel_with_status : Nat
  send_ops : Nat
  recv_ops : Nat
deriving Repr, DecidableEq, Inhabited

/-- Modelled from the spec: the status-code enumeration is external to
this file; the cancellation enumerand is a distinguished nonzero value. -/
def GRPC_STATUS_CANCELLED : Nat := 1

/-- The observable outcome of `grpc_call_next_op`: the address of the
element whose `start_transport_op` handler is invoked, and the op. -/
structure TransportOpInvocation where
  target_elem : Nat
  op : grpc_transport_op
deriving Repr, DecidableEq

/-- `grpc_call_next_op`: `next_elem = elem + 1` (element-pointer
arithmetic), then `next_elem->filter->start_transport_op(next_elem, op)`. -/
def grpc_call_next_op (P : Platform) (elem : Nat)
    (op : grpc_transport_op) : TransportOpInvocation :=
  { target_elem := elem + 1 * P.sizeof_grpc_call_element, op := op }

/-- `grpc_call_element_send_cancel`: `memset(&op, 0, sizeof(op))`, then
`op.cancel_with_status = GRPC_STATUS_CANCELLED`, then
`grpc_call_next_op(cur_elem, &op)`. -/
def grpc_call_element_send_cancel (P : Platform) (cur_elem : Nat) :
    TransportOpInvocation :=
  let op : grpc_transport_op :=
    { cancel_with_status := 0, send_ops := 0, recv_ops := 0 }
  grpc_call_next_op P cur_elem { op with
    cancel_with_status := GRPC_STATUS_CANCELLED }

/-- Observable behaviour of `grpc_call_element_recv_status`: whether the
process aborts, and which `start_transport_op` handlers were invoked
before that. -/
structure RecvStatusBehavior where
  aborts : Bool
  invocations : List TransportOpInvocation
deriving Repr, DecidableEq

/-- `grpc_call_element_recv_status`: the body is `abort()`. -/
def grpc_call_element_recv_status (cur_elem status : Nat)
    (message : String) : RecvStatusBehavior :=
  { aborts := true, invocations := [] }

/-! ### Arithmetic of `ROUND_UP_TO_ALIGNMENT_SIZE` -/

/-- Clearing the low `k` bits rounds down to a multiple of `2 ^ k`. -/
theorem Nat.ldiff_two_pow_sub_one (n k : Nat) :
    Nat.ldiff n (2 ^ k - 1) = 2 ^ k * (n / 2 ^ k) := by
  have h : Nat.ldiff n (2 ^ k - 1) = (n >>> k) <<< k := by
    apply Nat.eq_of_testBit_eq
    intro i
    rw [Nat.testBit_ldiff]
    simp only [Nat.testBit_two_pow_sub_one, Nat.testBit_shiftLeft,
      Nat.testBit_shiftRight]
    by_cases hik : k ≤ i
    · have hi : k + (i - k) = i := by omega
      simp [hik, hi, Nat.not_lt.mpr hik, ge_iff_le]
    · simp [hik, Nat.lt_of_not_le hik, ge_iff_le]
  rw [h, Nat.shiftLeft_eq, Nat.shiftRight_eq_div_pow, Nat.mul_comm]

/-- With a power-of-two alignment, `ROUND_UP_TO_ALIGNMENT_SIZE` is
alignment times the ceiling quotient. -/
theorem ROUND_UP_eq_mul_div (P : Platform) (k : Nat)
    (ha : P.GPR_MAX_ALIGNMENT = 2 ^ k) (x : Nat) :
    ROUND_UP_TO_ALIGNMENT_SIZE P x = 2 ^ k * ((x + 2 ^ k - 1) / 2 ^ k) := by
  unfold ROUND_UP_TO_ALIGNMENT_SIZE
  rw [ha, Nat.ldiff_two_pow_sub_one]

/-- With a power-of-two alignment, rounding up never shrinks. -/
theorem le_ROUND_UP (P : Platform) (k : Nat)
    (ha : P.GPR_MAX_ALIGNMENT = 2 ^ k) (x : Nat) :
    x ≤ ROUND_UP_TO_ALIGNMENT_SIZE P x := by
  rw [ROUND_UP_eq_mul_div P k ha]
  have hpos : 0 < 2 ^ k := Nat.two_pow_pos k
  have hdm := Nat.div_add_mod (x + 2 ^ k - 1) (2 ^ k)
  have hlt : (x + 2 ^ k - 1) % 2 ^ k < 2 ^ k := Nat.mod_lt _ hpos
  generalize hq : (x + 2 ^ k - 1) / 2 ^ k = q at hdm ⊢
  generalize hr : (x + 2 ^ k - 1) % 2 ^ k = r at hdm hlt
  generalize hA : 2 ^ k * q = A at hdm ⊢
  omega

/-- The rounded value is a multiple of the alignment. -/
theorem dvd_ROUND_UP (P : Platform) (k : Nat)
    (ha : P.GPR_MAX_ALIGNMENT = 2 ^ k) (x : Nat) :
    2 ^ k ∣ ROUND_UP_TO_ALIGNMENT_SIZE P x :=
  ⟨_, ROUND_UP_eq_mul_div P k ha x⟩

/-- Minimality: the rounded value is below every multiple of the
alignment that is at least `x`. -/
theorem ROUND_UP_le_of_dvd (P : Platform) (k : Nat)
    (ha : P.GPR_MAX_ALIGNMENT = 2 ^ k) (x m : Nat)
    (hdvd : 2 ^ k ∣ m) (hxm : x ≤ m) :
    ROUND_UP_TO_ALIGNMENT_SIZE P x ≤ m := by
  obtain ⟨t, rfl⟩ := hdvd
  rw [ROUND_UP_eq_mul_div P k ha]
  have hpos : 0 < 2 ^ k := Nat.two_pow_pos k
  have hq : (x + 2 ^ k - 1) / 2 ^ k ≤ t := by
    rw [Nat.div_le_iff_le_mul_add_pred hpos]
    generalize 2 ^ k * t = A at hxm ⊢
    omega
  exact Nat.mul_le_mul_left _ hq

/-- Rounding up zero gives zero. -/
theorem ROUND_UP_zero (P : Platform) (k : Nat)
    (ha : P.GPR_MAX_ALIGNMENT = 2 ^ k) :
    ROUND_UP_TO_ALIGNMENT_SIZE P 0 = 0 := by
  rw [ROUND_UP_eq_mul_div P k ha]
  have hpos : 0 < 2 ^ k := Nat.two_pow_pos k
  have h0 : (2 ^ k - 1) / 2 ^ k = 0 := Nat.div_eq_of_lt (by omega)
  simp [h0]

/-- A power-of-two alignment passes the power-of-two `GPR_ASSERT`. -/
theorem assert_holds_of_two_pow (P : Platform) (k : Nat)
    (ha : P.GPR_MAX_ALIGNMENT = 2 ^ k) :
    grpc_channel_stack_size_assert_holds P := by
  unfold grpc_channel_stack_size_assert_holds
  rw [ha]
  apply Nat.eq_of_testBit_eq
  intro i
  rw [Nat.testBit_and]
  simp only [Nat.testBit_two_pow, Nat.testBit_two_pow_sub_one,
    Nat.zero_testBit]
  by_cases h : k = i
  · subst h; simp
  · simp [h]

/-- A positive alignment passing the power-of-two `GPR_ASSERT` is a power
of two. -/
theorem two_pow_of_assert_holds (P : Platform)
    (hpos : 0 < P.GPR_MAX_ALIGNMENT)
    (h : grpc_channel_stack_size_assert_holds P) :
    ∃ k, P.GPR_MAX_ALIGNMENT = 2 ^ k := by
  unfold grpc_channel_stack_size_assert_holds at h
  set a := P.GPR_MAX_ALIGNMENT with hadef
  refine ⟨a.log2, ?_⟩
  have h1 : 2 ^ a.log2 ≤ a := Nat.log2_self_le (by omega)
  have h2 : a < 2 ^ (a.log2 + 1) := Nat.lt_log2_self
  rcases Nat.lt_or_ge (2 ^ a.log2) a with hlt | hge
  · exfalso
    have hp : 2 ^ (a.log2 + 1) = 2 * 2 ^ a.log2 := by
      rw [Nat.pow_succ]; omega
    have hd1 : a / 2 ^ a.log2 = 1 := by
      apply Nat.div_eq_of_lt_le <;> omega
    have hd2 : (a - 1) / 2 ^ a.log2 = 1 := by
      apply Nat.div_eq_of_lt_le <;> omega
    have hb1 : a.testBit a.log2 = true := by
      rw [Nat.testBit_to_div_mod, hd1]; rfl
    have hb2 : (a - 1).testBit a.log2 = true := by
      rw [Nat.testBit_to_div_mod, hd2]; rfl
    have hz := congrArg (fun n => n.testBit a.log2) h
    simp only [Nat.testBit_and, hb1, hb2, Nat.zero_testBit,
      Bool.and_self] at hz
    exact Bool.noConfusion hz
  · omega

/-! ### Loop characterizations -/

/-- Folding `+ g x` over a list adds the sum of the mapped list. -/
theorem foldl_add_map {α : Type} (g : α → Nat) (l : List α) (s : Nat) :
    l.foldl (fun acc x => acc + g x) s = s + (l.map g).sum := by
  induction l generalizing s with
  | nil => simp
  | cons x xs ih => simp [ih, Nat.add_assoc]

/-- Indexed `getD` reads over `List.range l.length` are just a map. -/
theorem range_map_getD {α β : Type} [Inhabited α] (l : List α) (g : α → β) :
    (List.range l.length).map (fun j => g (l.getD j default)) = l.map g := by
  induction l with
  | nil => simp
  | cons x xs ih =>
    simp only [List.length_cons, List.range_succ_eq_map, List.map_cons,
      List.getD_cons_zero, List.map_map, Function.comp_def,
      List.getD_cons_succ]
    rw [ih]

/-- Closed form of `grpc_channel_stack_size`. -/
theorem grpc_channel_stack_size_eq (P : Platform)
    (filters : List grpc_channel_filter) :
    grpc_channel_stack_size P filters
      = ROUND_UP_TO_ALIGNMENT_SIZE P P.sizeof_grpc_channel_stack +
        ROUND_UP_TO_ALIGNMENT_SIZE P
          (filters.length * P.sizeof_grpc_channel_element) +
        (filters.map (fun f =>
          ROUND_UP_TO_ALIGNMENT_SIZE P f.sizeof_channel_data)).sum := by
  unfold grpc_channel_stack_size
  rw [foldl_add_map]

/-- The channel init loop advances `user_data` by the sum of the aligned
channel-data sizes. -/
theorem channelInitLoop_user_data (P : Platform) (elemsBase n : Nat)
    (fs : List grpc_channel_filter) (i user_data call_size : Nat) :
    (channelInitLoop P elemsBase n fs i user_data call_size).user_data
      = user_data + (fs.map (fun f =>
          ROUND_UP_TO_ALIGNMENT_SIZE P f.sizeof_channel_data)).sum := by
  induction fs generalizing i user_data call_size with
  | nil => simp [channelInitLoop]
  | cons f rest ih => simp [channelInitLoop, ih, Nat.add_assoc]

/-- The channel init loop advances `call_size` by the sum of the aligned
call-data sizes. -/
theorem channelInitLoop_call_size (P : Platform) (elemsBase n : Nat)
    (fs : List grpc_channel_filter) (i user_data call_size : Nat) :
    (channelInitLoop P elemsBase n fs i user_data call_size).call_size
      = call_size + (fs.map (fun f =>
          ROUND_UP_TO_ALIGNMENT_SIZE P f.sizeof_call_data)).sum := by
  induction fs generalizing i user_data call_size with
  | nil => simp [channelInitLoop]
  | cons f rest ih => simp [channelInitLoop, ih, Nat.add_assoc]

/-- The channel init loop builds one element per filter. -/
theorem channelInitLoop_elems_length (P : Platform) (elemsBase n : Nat)
    (fs : List grpc_channel_filter) (i user_data call_size : Nat) :
    (channelInitLoop P elemsBase n fs i user_data call_size).elems.length
      = fs.length := by
  induction fs generalizing i user_data call_size with
  | nil => simp [channelInitLoop]
  | cons f rest ih => simp [channelInitLoop, ih]

/-- Element `j` built by the channel init loop: filter `j` of the list,
with `channel_data` at the cursor advanced over the first `j` filters. -/
theorem channelInitLoop_elems_getD (P : Platform) (elemsBase n : Nat)
    (fs : List grpc_channel_filter) (i user_data call_size j : Nat)
    (hj : j < fs.length) :
    (channelInitLoop P elemsBase n fs i user_data call_size).elems.getD j
        default
      = { filter := fs.getD j default,
          channel_data := user_data + ((fs.take j).map (fun f =>
            ROUND_UP_TO_ALIGNMENT_SIZE P f.sizeof_channel_data)).sum } := by
  induction fs generalizing i user_data call_size j with
  | nil => exact absurd hj (by simp)
  | cons f rest ih =>
    cases j with
    | zero => simp [channelInitLoop]
    | succ j =>
      have hj' : j < rest.length := by
        simpa [Nat.succ_lt_succ_iff] using hj
      simp only [channelInitLoop, List.getD_cons_succ]
      rw [ih _ _ _ _ hj']
      simp [List.take_succ_cons, Nat.add_assoc]

/-- The `init_channel_elem` trace of the channel init loop. -/
theorem channelInitLoop_trace (P : Platform) (elemsBase n : Nat)
    (fs : List grpc_channel_filter) (i user_data call_size : Nat) :
    (channelInitLoop P elemsBase n fs i user_data call_size).trace
      = (List.range fs.length).map (fun j =>
          { elem_addr := elemsBase + (i + j) * P.sizeof_grpc_channel_element,
            filter := fs.getD j default,
            is_first := (i + j) == 0,
            is_last := (i + j) == n - 1 }) := by
  induction fs generalizing i user_data call_size with
  | nil => simp [channelInitLoop]
  | cons f rest ih =>
    simp only [channelInitLoop, List.length_cons, List.range_succ_eq_map,
      List.map_cons, List.map_map, Function.comp_def, List.getD_cons_zero,
      List.getD_cons_succ, Nat.succ_eq_add_one, Nat.add_zero]
    rw [ih]
    congr 1
    apply List.map_congr_left
    intro j _
    have h : i + (j + 1) = (i + 1) + j := by omega
    rw [h]

/-- The call init loop advances `user_data` by the sum of the aligned
call-data sizes of the filters read from the channel-element table. -/
theorem callInitLoop_user_data (P : Platform)
    (chanElems : List grpc_channel_element) (elemsBase : Nat)
    (k i user_data : Nat) :
    (callInitLoop P chanElems elemsBase k i user_data).user_data
      = user_data + ((List.range k).map (fun j =>
          ROUND_UP_TO_ALIGNMENT_SIZE P
            ((chanElems.getD (i + j) default).filter.sizeof_call_data))).sum
      := by
  induction k generalizing i user_data with
  | zero => simp [callInitLoop]
  | succ k ih =>
    simp only [callInitLoop]
    rw [ih]
    rw [List.range_succ_eq_map]
    simp only [List.map_cons, List.sum_cons, List.map_map, Function.comp_def,
      Nat.succ_eq_add_one, Nat.add_zero]
    have hmap :
        (List.range k).map (fun j =>
            ROUND_UP_TO_ALIGNMENT_SIZE P
              ((chanElems.getD (i + (j + 1)) default).filter.sizeof_call_data))
          = (List.range k).map (fun j =>
            ROUND_UP_TO_ALIGNMENT_SIZE P
              ((chanElems.getD ((i + 1) + j) default).filter.sizeof_call_data))
        := by
      apply List.map_congr_left
      intro j _
      have h : i + (j + 1) = (i + 1) + j := by omega
      rw [h]
    rw [hmap]
    omega

/-- Element `j` built by the call init loop: filter and `channel_data`
copied from channel element `i + j`, with fresh `call_data` at the cursor
advanced over the previous iterations. -/
theorem callInitLoop_elems_getD (P : Platform)
    (chanElems : List grpc_channel_element) (elemsBase : Nat)
    (k i user_data j : Nat) (hj : j < k) :
    (callInitLoop P chanElems elemsBase k i user_data).elems.getD j default
      = { filter := (chanElems.getD (i + j) default).filter,
          channel_data := (chanElems.getD (i + j) default).channel_data,
          call_data := user_data + ((List.range j).map (fun t =>
            ROUND_UP_TO_ALIGNMENT_SIZE P
              ((chanElems.getD (i + t) default).filter.sizeof_call_data))).sum
        } := by
  induction k generalizing i user_data j with
  | zero => omega
  | succ k ih =>
    cases j with
    | zero => simp [callInitLoop]
    | succ j =>
      simp only [callInitLoop, List.getD_cons_succ]
      rw [ih _ _ _ (by omega)]
      rw [List.range_succ_eq_map]
      simp only [List.map_cons, List.sum_cons, List.map_map,
        Function.comp_def, Nat.succ_eq_add_one, Nat.add_zero]
      have hmap :
          (List.range j).map (fun t =>
              ROUND_UP_TO_ALIGNMENT_SIZE P
                ((chanElems.getD (i + (t + 1))
                  default).filter.sizeof_call_data))
            = (List.range j).map (fun t =>
              ROUND_UP_TO_ALIGNMENT_SIZE P
                ((chanElems.getD ((i + 1) + t)
                  default).filter.sizeof_call_data)) := by
        apply List.map_congr_left
        intro t _
        have ht : i + (t + 1) = (i + 1) + t := by omega
        rw [ht]
      have h : i + (j + 1) = (i + 1) + j := by omega
      rw [hmap, h]
      refine (grpc_call_element.mk.injEq _ _ _ _ _ _).mpr ⟨rfl, rfl, ?_⟩
      omega

/-- The `init_call_elem` trace of the call init loop. -/
theorem callInitLoop_trace (P : Platform)
    (chanElems : List grpc_channel_element) (elemsBase : Nat)
    (k i user_data : Nat) :
    (callInitLoop P chanElems elemsBase k i user_data).trace
      = (List.range k).map (fun j =>
          { elem_addr := elemsBase + (i + j) * P.sizeof_grpc_call_element,
            filter := (chanElems.getD (i + j) default).filter }) := by
  induction k generalizing i user_data with
  | zero => simp [callInitLoop]
  | succ k ih =>
    simp only [callInitLoop]
    rw [ih]
    rw [List.range_succ_eq_map]
    simp only [List.map_cons, List.map_map, Function.comp_def,
      Nat.succ_eq_add_one, Nat.add_zero]
    congr 1
    apply List.map_congr_left
    intro j _
    have h : i + (j + 1) = (i + 1) + j := by omega
    rw [h]

/-! ### Closed forms for the init functions -/

theorem grpc_channel_stack_init_count (P : Platform)
    (filters : List grpc_channel_filter) (stackBase : Nat) :
    (grpc_channel_stack_init P filters stackBase).stack.count
      = filters.length := rfl

theorem grpc_channel_stack_init_base (P : Platform)
    (filters : List grpc_channel_filter) (stackBase : Nat) :
    (grpc_channel_stack_init P filters stackBase).stack.base = stackBase := rfl

theorem grpc_channel_stack_init_call_stack_size (P : Platform)
    (filters : List grpc_channel_filter) (stackBase : Nat) :
    (grpc_channel_stack_init P filters stackBase).stack.call_stack_size
      = ROUND_UP_TO_ALIGNMENT_SIZE P P.sizeof_grpc_call_stack +
        ROUND_UP_TO_ALIGNMENT_SIZE P
          (filters.length * P.sizeof_grpc_call_element) +
        (filters.map (fun f =>
          ROUND_UP_TO_ALIGNMENT_SIZE P f.sizeof_call_data)).sum := by
  simp only [grpc_channel_stack_init, channelInitLoop_call_size]

theorem grpc_channel_stack_init_user_data_end (P : Platform)
    (filters : List grpc_channel_filter) (stackBase : Nat) :
    (grpc_channel_stack_init P filters stackBase).user_data_end
      = stackBase +
        ROUND_UP_TO_ALIGNMENT_SIZE P P.sizeof_grpc_channel_stack +
        ROUND_UP_TO_ALIGNMENT_SIZE P
          (filters.length * P.sizeof_grpc_channel_element) +
        (filters.map (fun f =>
          ROUND_UP_TO_ALIGNMENT_SIZE P f.sizeof_channel_data)).sum := by
  simp only [grpc_channel_stack_init, channelInitLoop_user_data,
    CHANNEL_ELEMS_FROM_STACK]

theorem grpc_channel_stack_init_elems_getD (P : Platform)
    (filters : List grpc_channel_filter) (stackBase j : Nat)
    (hj : j < filters.length) :
    (grpc_channel_stack_init P filters stackBase).stack.elems.getD j default
      = { filter := filters.getD j default,
          channel_data := stackBase +
            ROUND_UP_TO_ALIGNMENT_SIZE P P.sizeof_grpc_channel_stack +
            ROUND_UP_TO_ALIGNMENT_SIZE P
              (filters.length * P.sizeof_grpc_channel_element) +
            ((filters.take j).map (fun f =>
              ROUND_UP_TO_ALIGNMENT_SIZE P f.sizeof_channel_data)).sum } := by
  simp only [grpc_channel_stack_init]
  rw [channelInitLoop_elems_getD P _ _ _ _ _ _ _ hj]
  simp only [CHANNEL_ELEMS_FROM_STACK]

theorem grpc_channel_stack_init_trace_eq (P : Platform)
    (filters : List grpc_channel_filter) (stackBase : Nat) :
    (grpc_channel_stack_init P filters stackBase).init_trace
      = (List.range filters.length).map (fun j =>
          { elem_addr := grpc_channel_stack_element P stackBase j,
            filter := filters.getD j default,
            is_first := j == 0,
            is_last := j == filters.length - 1 }) := by
  simp only [grpc_channel_stack_init, channelInitLoop_trace]
  apply List.map_congr_left
  intro j _
  simp [grpc_channel_stack_element, CHANNEL_ELEMS_FROM_STACK]

theorem grpc_call_stack_init_count (P : Platform) (s : grpc_channel_stack)
    (callBase : Nat) :
    (grpc_call_stack_init P s callBase).stack.count = s.count := rfl

theorem grpc_call_stack_init_base (P : Platform) (s : grpc_channel_stack)
    (callBase : Nat) :
    (grpc_call_stack_init P s callBase).stack.base = callBase := rfl

theorem grpc_call_stack_init_user_data_end (P : Platform)
    (s : grpc_channel_stack) (callBase : Nat) :
    (grpc_call_stack_init P s callBase).user_data_end
      = callBase + ROUND_UP_TO_ALIGNMENT_SIZE P P.sizeof_grpc_call_stack +
        ROUND_UP_TO_ALIGNMENT_SIZE P
          (s.count * P.sizeof_grpc_call_element) +
        ((List.range s.count).map (fun j =>
          ROUND_UP_TO_ALIGNMENT_SIZE P
            ((s.elems.getD j default).filter.sizeof_call_data))).sum := by
  simp only [grpc_call_stack_init, callInitLoop_user_data,
    CALL_ELEMS_FROM_STACK, Nat.zero_add]

theorem grpc_call_stack_init_elems_getD (P : Platform)
    (s : grpc_channel_stack) (callBase j : Nat) (hj : j < s.count) :
    (grpc_call_stack_init P s callBase).stack.elems.getD j default
      = { filter := (s.elems.getD j default).filter,
          channel_data := (s.elems.getD j default).channel_data,
          call_data := callBase +
            ROUND_UP_TO_ALIGNMENT_SIZE P P.sizeof_grpc_call_stack +
            ROUND_UP_TO_ALIGNMENT_SIZE P
              (s.count * P.sizeof_grpc_call_element) +
            ((List.range j).map (fun t =>
              ROUND_UP_TO_ALIGNMENT_SIZE P
                ((s.elems.getD t default).filter.sizeof_call_data))).sum } := by
  simp only [grpc_call_stack_init]
  rw [callInitLoop_elems_getD P _ _ _ _ _ _ hj]
  simp only [Nat.zero_add, CALL_ELEMS_FROM_STACK]

theorem grpc_call_stack_init_trace_eq (P : Platform)
    (s : grpc_channel_stack) (callBase : Nat) :
    (grpc_call_stack_init P s callBase).init_trace
      = (List.range s.count).map (fun j =>
          { elem_addr := grpc_call_stack_element P callBase j,
            filter := (s.elems.getD j default).filter }) := by
  simp only [grpc_call_stack_init, callInitLoop_trace]
  apply List.map_congr_left
  intro j _
  simp [grpc_call_stack_element, CALL_ELEMS_FROM_STACK]

/-! ### Projection corollaries and prefix-sum helpers -/

theorem grpc_channel_stack_init_elem_filter (P : Platform)
    (filters : List grpc_channel_filter) (stackBase j : Nat)
    (hj : j < filters.length) :
    ((grpc_channel_stack_init P filters stackBase).stack.elems.getD j
        default).filter = filters.getD j default := by
  rw [grpc_channel_stack_init_elems_getD P filters stackBase j hj]

theorem grpc_channel_stack_init_channel_data (P : Platform)
    (filters : List grpc_channel_filter) (stackBase j : Nat)
    (hj : j < filters.length) :
    ((grpc_channel_stack_init P filters stackBase).stack.elems.getD j
        default).channel_data
      = stackBase +
        ROUND_UP_TO_ALIGNMENT_SIZE P P.sizeof_grpc_channel_stack +
        ROUND_UP_TO_ALIGNMENT_SIZE P
          (filters.length * P.sizeof_grpc_channel_element) +
        ((filters.take j).map (fun f =>
          ROUND_UP_TO_ALIGNMENT_SIZE P f.sizeof_channel_data)).sum := by
  rw [grpc_channel_stack_init_elems_getD P filters stackBase j hj]

/-- Reading over `List.range l.length` with `getD` returns the list. -/
theorem range_map_getD_id {α : Type} [Inhabited α] (l : List α) :
    (List.range l.length).map (fun j => l.getD j default) = l := by
  have h := range_map_getD l id
  simpa using h

/-- Prefix sums of a `Nat` list are monotone in the prefix length. -/
theorem sum_take_le_sum_take (L : List Nat) (i j : Nat) (hij : i ≤ j) :
    (L.take i).sum ≤ (L.take j).sum := by
  have h : j = i + (j - i) := by omega
  rw [h, List.take_add, List.sum_append]
  omega

/-- One step of a prefix sum adds the element at the boundary. -/
theorem sum_take_succ_eq (L : List Nat) (i : Nat) (hi : i < L.length) :
    (L.take (i + 1)).sum = (L.take i).sum + L.getD i 0 := by
  rw [List.sum_take_succ L i hi]
  simp [List.getD_eq_getElem?_getD, List.getElem?_eq_getElem hi]

/-! ### Concrete layouts and filters for witnesses -/

/-- A representative 64-bit platform layout: alignment `16 = 2 ^ 4`,
`sizeof(grpc_channel_stack) = 16`, `sizeof(grpc_channel_element) = 16`,
`sizeof(grpc_call_stack) = 8`, `sizeof(grpc_call_element) = 24`. -/
def P64 : Platform :=
  { GPR_MAX_ALIGNMENT := 16,
    sizeof_grpc_channel_stack := 16,
    sizeof_grpc_channel_element := 16,
    sizeof_grpc_call_stack := 8,
    sizeof_grpc_call_element := 24 }

/-- The same layout with the degenerate alignment value `0`. -/
def P0align : Platform :=
  { GPR_MAX_ALIGNMENT := 0,
    sizeof_grpc_channel_stack := 16,
    sizeof_grpc_channel_element := 16,
    sizeof_grpc_call_stack := 8,
    sizeof_grpc_call_element := 24 }

/-- Example filter with channel-data size 8 and call-data size 4. -/
def filterA : grpc_channel_filter :=
  { sizeof_call_data := 4, sizeof_channel_data := 8, name := "a" }

/-- Example filter with channel-data size 0 and call-data size 4. -/
def filterB : grpc_channel_filter :=
  { sizeof_call_data := 4, sizeof_channel_data := 0, name := "b" }

/-- Example filter with channel-data size 16 and call-data size 0. -/
def filterC : grpc_channel_filter :=
  { sizeof_call_data := 0, sizeof_channel_data := 16, name := "c" }

/-! ### Claim theorems -/

/-- C1: Round-trip sizing law.  For every platform layout, filter list and
stack base address, the user-data cursor reached at the end of
`grpc_channel_stack_init`, measured as `user_data - stack`, equals exactly
the byte size returned by `grpc_channel_stack_size` for the same filter
list, so the sizing assertion at the end of init holds (the cursor also
never precedes the base, making the pointer difference well defined). -/
theorem C1_roundtrip_sizing (P : Platform)
    (filters : List grpc_channel_filter) (stackBase : Nat) :
    stackBase ≤ (grpc_channel_stack_init P filters stackBase).user_data_end ∧
    (grpc_channel_stack_init P filters stackBase).user_data_end - stackBase
      = grpc_channel_stack_size P filters := by
  rw [grpc_channel_stack_init_user_data_end, grpc_channel_stack_size_eq]
  omega

/-- C2 counterexample: on the concrete layout `P64`, a 2-filter stack at
base address 0 has index 1 in range, yet owner recovery applied to the
accessor's element pointer at index 1 yields address 32, not the stack
header address 0 — the claim fails for every index other than 0. -/
theorem C2_counterexample :
    (grpc_channel_stack_init P64 [filterA, filterB] 0).stack.count = 2 ∧
    grpc_channel_stack_from_top_element P64
        (grpc_channel_stack_element P64 0 1) ≠ 0 := by
  constructor
  · rfl
  · have h16 : ROUND_UP_TO_ALIGNMENT_SIZE P64
        P64.sizeof_grpc_channel_stack = 16 := by
      rw [ROUND_UP_eq_mul_div P64 4 rfl]
      decide
    unfold grpc_channel_stack_from_top_element grpc_channel_stack_element
      CHANNEL_ELEMS_FROM_STACK
    rw [h16]
    decide

/-- C2 (amended): owner recovery subtracts only the aligned header size,
so composed with the accessor it returns the stack header address plus
`i` element sizes: it is an inverse of the accessor exactly at the top
element (index 0), for channel and call stacks alike. -/
theorem C2_owner_recovery (P : Platform) (s cs i : Nat) :
    grpc_channel_stack_from_top_element P
        (grpc_channel_stack_element P s i)
      = s + i * P.sizeof_grpc_channel_element ∧
    grpc_channel_stack_from_top_element P
        (grpc_channel_stack_element P s 0) = s ∧
    grpc_call_stack_from_top_element P (grpc_call_stack_element P cs i)
      = cs + i * P.sizeof_grpc_call_element ∧
    grpc_call_stack_from_top_element P (grpc_call_stack_element P cs 0)
      = cs := by
  unfold grpc_channel_stack_from_top_element grpc_channel_stack_element
    grpc_call_stack_from_top_element grpc_call_stack_element
    CHANNEL_ELEMS_FROM_STACK CALL_ELEMS_FROM_STACK
  omega

/-- C3 counterexample: the alignment value `0` is not a power of two, yet
`(0 & (0 - 1)) == 0` holds, so `grpc_channel_stack_size` does not fail
its assertion on that platform — the unqualified "not a power of two
implies the assertion fails" part of the claim is false at 0. -/
theorem C3_counterexample :
    (¬ ∃ k, P0align.GPR_MAX_ALIGNMENT = 2 ^ k) ∧
    grpc_channel_stack_size_assert_holds P0align := by
  constructor
  · rintro ⟨k, hk⟩
    have hpos : 0 < 2 ^ k := Nat.two_pow_pos k
    have hz : P0align.GPR_MAX_ALIGNMENT = 0 := rfl
    omega
  · show P0align.GPR_MAX_ALIGNMENT &&& (P0align.GPR_MAX_ALIGNMENT - 1) = 0
    decide

/-- C3 (amended): assuming `GPR_MAX_ALIGNMENT` is a power of two,
`ROUND_UP_TO_ALIGNMENT_SIZE x` is the least multiple of it that is `≥ x`,
the value of `grpc_channel_stack_size` and every sub-region size it is
built from are multiples of it, and the power-of-two assertion holds;
conversely a platform with a *positive* alignment passing the assertion
has a power-of-two alignment (so for positive non-powers-of-two the
assertion fails; the degenerate value 0 passes it, see the
counterexample). -/
theorem C3_alignment_law (P : Platform) (k : Nat)
    (ha : P.GPR_MAX_ALIGNMENT = 2 ^ k) :
    (∀ x, x ≤ ROUND_UP_TO_ALIGNMENT_SIZE P x ∧
      P.GPR_MAX_ALIGNMENT ∣ ROUND_UP_TO_ALIGNMENT_SIZE P x ∧
      ∀ m, P.GPR_MAX_ALIGNMENT ∣ m → x ≤ m →
        ROUND_UP_TO_ALIGNMENT_SIZE P x ≤ m) ∧
    (∀ filters : List grpc_channel_filter,
      P.GPR_MAX_ALIGNMENT ∣ grpc_channel_stack_size P filters) ∧
    grpc_channel_stack_size_assert_holds P ∧
    (∀ Q : Platform, 0 < Q.GPR_MAX_ALIGNMENT →
      grpc_channel_stack_size_assert_holds Q →
      ∃ j, Q.GPR_MAX_ALIGNMENT = 2 ^ j) := by
  refine ⟨fun x => ⟨le_ROUND_UP P k ha x, ?_, fun m hm hxm => ?_⟩,
    fun filters => ?_, assert_holds_of_two_pow P k ha,
    fun Q hq hassert => two_pow_of_assert_holds Q hq hassert⟩
  · rw [ha]
    exact dvd_ROUND_UP P k ha x
  · rw [ha] at hm
    exact ROUND_UP_le_of_dvd P k ha x m hm hxm
  · rw [grpc_channel_stack_size_eq, ha]
    refine Nat.dvd_add (Nat.dvd_add ?_ ?_) ?_
    · exact dvd_ROUND_UP P k ha _
    · exact dvd_ROUND_UP P k ha _
    · apply List.dvd_sum
      intro x hx
      obtain ⟨f, _, rfl⟩ := List.mem_map.mp hx
      exact dvd_ROUND_UP P k ha _

/-- C3 witness: the amended claim applied to the concrete layout `P64`
(alignment `16 = 2 ^ 4`), evaluated at `x = 20` and a one-filter list. -/
theorem C3_alignment_law_witness :
    ((20 : Nat) ≤ ROUND_UP_TO_ALIGNMENT_SIZE P64 20 ∧
      P64.GPR_MAX_ALIGNMENT ∣ ROUND_UP_TO_ALIGNMENT_SIZE P64 20) ∧
    P64.GPR_MAX_ALIGNMENT ∣ grpc_channel_stack_size P64 [filterA] ∧
    grpc_channel_stack_size_assert_holds P64 := by
  have h := C3_alignment_law P64 4 rfl
  exact ⟨⟨(h.1 20).1, (h.1 20).2.1⟩, h.2.1 [filterA], h.2.2.1⟩

/-- C4: Call-stack sizing.  The `call_stack_size` stored in the header by
`grpc_channel_stack_init` equals aligned call-stack header size plus
aligned call-element table size plus the sum of each filter's aligned
`sizeof_call_data`; and the user-data cursor at the end of
`grpc_call_stack_init` on that stack lands exactly at the call-stack base
plus this `call_stack_size`. -/
theorem C4_call_stack_sizing (P : Platform)
    (filters : List grpc_channel_filter) (stackBase callBase : Nat) :
    (grpc_channel_stack_init P filters stackBase).stack.call_stack_size
        = ROUND_UP_TO_ALIGNMENT_SIZE P P.sizeof_grpc_call_stack +
          ROUND_UP_TO_ALIGNMENT_SIZE P
            (filters.length * P.sizeof_grpc_call_element) +
          (filters.map (fun f =>
            ROUND_UP_TO_ALIGNMENT_SIZE P f.sizeof_call_data)).sum ∧
    (grpc_call_stack_init P
        (grpc_channel_stack_init P filters stackBase).stack
        callBase).user_data_end
      = callBase +
        (grpc_channel_stack_init P filters stackBase).stack.call_stack_size
      := by
  refine ⟨grpc_channel_stack_init_call_stack_size P filters stackBase, ?_⟩
  rw [grpc_call_stack_init_user_data_end,
    grpc_channel_stack_init_call_stack_size, grpc_channel_stack_init_count]
  have hsum :
      (List.range filters.length).map (fun j =>
        ROUND_UP_TO_ALIGNMENT_SIZE P
          (((grpc_channel_stack_init P filters stackBase).stack.elems.getD j
            default).filter.sizeof_call_data))
        = filters.map (fun f =>
            ROUND_UP_TO_ALIGNMENT_SIZE P f.sizeof_call_data) := by
    rw [← range_map_getD filters
      (fun f => ROUND_UP_TO_ALIGNMENT_SIZE P f.sizeof_call_data)]
    apply List.map_congr_left
    intro j hj
    rw [grpc_channel_stack_init_elem_filter P filters stackBase j
      (List.mem_range.mp hj)]
  rw [hsum]
  omega

/-- C5: Propagation direction semantics.  `grpc_channel_next_op` from the
element at index `i` with `dir = +1` invokes the handler at the address
of element `i + 1`, with `dir = -1` at the address of element `i - 1`
(for `i ≥ 1`), in both cases passing element `i` as the operation's
origin and the operation unchanged; `grpc_call_next_op` always targets
element `i + 1`, with no direction input. -/
theorem C5_propagation_direction (P : Platform) (s cs i : Nat)
    (opUp opDown : grpc_channel_op) (top : grpc_transport_op)
    (hup : opUp.dir = 1) (hdown : opDown.dir = -1) (hi : 1 ≤ i) :
    ((grpc_channel_next_op P (grpc_channel_stack_element P s i)
          opUp).target_elem
        = grpc_channel_stack_element P s (i + 1) ∧
      (grpc_channel_next_op P (grpc_channel_stack_element P s i)
          opUp).from_elem
        = grpc_channel_stack_element P s i ∧
      (grpc_channel_next_op P (grpc_channel_stack_element P s i) opUp).op
        = opUp) ∧
    ((grpc_channel_next_op P (grpc_channel_stack_element P s i)
          opDown).target_elem
        = grpc_channel_stack_element P s (i - 1) ∧
      (grpc_channel_next_op P (grpc_channel_stack_element P s i)
          opDown).from_elem
        = grpc_channel_stack_element P s i ∧
      (grpc_channel_next_op P (grpc_channel_stack_element P s i) opDown).op
        = opDown) ∧
    ((grpc_call_next_op P (grpc_call_stack_element P cs i) top).target_elem
        = grpc_call_stack_element P cs (i + 1) ∧
      (grpc_call_next_op P (grpc_call_stack_element P cs i) top).op = top)
      := by
  simp only [grpc_channel_next_op, grpc_call_next_op,
    grpc_channel_stack_element, grpc_call_stack_element,
    CHANNEL_ELEMS_FROM_STACK, CALL_ELEMS_FROM_STACK, hup, hdown]
  refine ⟨⟨?_, trivial, trivial⟩, ⟨?_, trivial, trivial⟩, ⟨?_, trivial⟩⟩
  · have h : (i + 1) * P.sizeof_grpc_channel_element
        = i * P.sizeof_grpc_channel_element +
          P.sizeof_grpc_channel_element := by
      rw [Nat.add_mul]; omega
    rw [h]
    omega
  · have h : (i - 1) * P.sizeof_grpc_channel_element
        = i * P.sizeof_grpc_channel_element -
          P.sizeof_grpc_channel_element := by
      rw [Nat.sub_mul]; omega
    have hle : 1 * P.sizeof_grpc_channel_element
        ≤ i * P.sizeof_grpc_channel_element :=
      Nat.mul_le_mul_right _ hi
    rw [h]
    omega
  · have h : (i + 1) * P.sizeof_grpc_call_element
        = i * P.sizeof_grpc_call_element + P.sizeof_grpc_call_element := by
      rw [Nat.add_mul]; omega
    rw [h]
    omega

/-- C5 witness: the direction law applied on the concrete layout `P64` at
index 1 with concrete `dir = +1` and `dir = -1` operations. -/
theorem C5_propagation_direction_witness :
    (grpc_channel_next_op P64 (grpc_channel_stack_element P64 0 1)
        { dir := 1 }).target_elem = grpc_channel_stack_element P64 0 2 ∧
    (grpc_channel_next_op P64 (grpc_channel_stack_element P64 0 1)
        { dir := -1 }).target_elem = grpc_channel_stack_element P64 0 0 ∧
    (grpc_call_next_op P64 (grpc_call_stack_element P64 0 1)
        { cancel_with_status := 0, send_ops := 0,
          recv_ops := 0 }).target_elem
      = grpc_call_stack_element P64 0 2 := by
  have h := C5_propagation_direction P64 0 0 1 { dir := 1 } { dir := -1 }
    { cancel_with_status := 0, send_ops := 0, recv_ops := 0 }
    rfl rfl (by decide)
  exact ⟨h.1.1, h.2.1.1, h.2.2.1⟩

/-- C6: Cancellation helper.  `grpc_call_element_send_cancel` from the
element at index `i` produces an operation whose fields are all zero
except `cancel_with_status = GRPC_STATUS_CANCELLED` and hands it to the
element at index `i + 1`; if that element's filter forwards it once more
with `grpc_call_next_op` (as the filters in the spec's 3-filter scenario
do), it reaches the element at index `i + 2` — for a 3-filter stack with
`i = 0`, element 2 — with the status still `GRPC_STATUS_CANCELLED`. -/
theorem C6_send_cancel (P : Platform) (cs i : Nat) :
    (grpc_call_element_send_cancel P
        (grpc_call_stack_element P cs i)).target_elem
        = grpc_call_stack_element P cs (i + 1) ∧
    (grpc_call_element_send_cancel P (grpc_call_stack_element P cs i)).op
        = { cancel_with_status := GRPC_STATUS_CANCELLED, send_ops := 0,
            recv_ops := 0 } ∧
    (grpc_call_next_op P
        (grpc_call_element_send_cancel P
          (grpc_call_stack_element P cs i)).target_elem
        (grpc_call_element_send_cancel P
          (grpc_call_stack_element P cs i)).op).target_elem
        = grpc_call_stack_element P cs (i + 2) ∧
    (grpc_call_next_op P
        (grpc_call_element_send_cancel P
          (grpc_call_stack_element P cs i)).target_elem
        (grpc_call_element_send_cancel P
          (grpc_call_stack_element P cs i)).op).op.cancel_with_status
      = GRPC_STATUS_CANCELLED := by
  simp only [grpc_call_element_send_cancel, grpc_call_next_op,
    grpc_call_stack_element, CALL_ELEMS_FROM_STACK]
  refine ⟨?_, trivial, ?_, trivial⟩
  · have h : (i + 1) * P.sizeof_grpc_call_element
        = i * P.sizeof_grpc_call_element + P.sizeof_grpc_call_element := by
      rw [Nat.add_mul]; omega
    rw [h]
    omega
  · have h : (i + 2) * P.sizeof_grpc_call_element
        = i * P.sizeof_grpc_call_element + P.sizeof_grpc_call_element +
          P.sizeof_grpc_call_element := by
      rw [Nat.add_mul]; omega
    rw [h]
    omega

/-- C7: Hook-order law.  Destroying an initialized channel stack invokes
each filter's `destroy_channel_elem` exactly once, at indices
`0, 1, ..., n-1` in that order (the trace is literally the index-ordered
list), and destroying a call stack built on it does the same with
`destroy_call_elem`; the init traces list the filters in the same
ascending order. -/
theorem C7_hook_order (P : Platform) (filters : List grpc_channel_filter)
    (stackBase callBase : Nat) :
    grpc_channel_stack_destroy P
        (grpc_channel_stack_init P filters stackBase).stack
      = (List.range filters.length).map (fun j =>
          { elem_addr := grpc_channel_stack_element P stackBase j,
            filter := filters.getD j default }) ∧
    grpc_call_stack_destroy P
        (grpc_call_stack_init P
          (grpc_channel_stack_init P filters stackBase).stack
          callBase).stack
      = (List.range filters.length).map (fun j =>
          { elem_addr := grpc_call_stack_element P callBase j,
            filter := filters.getD j default }) ∧
    (grpc_channel_stack_init P filters stackBase).init_trace.map
        (fun c => c.filter) = filters ∧
    (grpc_call_stack_init P
        (grpc_channel_stack_init P filters stackBase).stack
        callBase).init_trace.map (fun c => c.filter) = filters := by
  refine ⟨?_, ?_, ?_, ?_⟩
  · simp only [grpc_channel_stack_destroy, grpc_channel_stack_init_count,
      grpc_channel_stack_init_base]
    apply List.map_congr_left
    intro j hj
    rw [grpc_channel_stack_init_elem_filter P filters stackBase j
      (List.mem_range.mp hj)]
  · simp only [grpc_call_stack_destroy, grpc_call_stack_init_count,
      grpc_call_stack_init_base, grpc_channel_stack_init_count]
    apply List.map_congr_left
    intro j hj
    have hjlen : j < filters.length := List.mem_range.mp hj
    rw [grpc_call_stack_init_elems_getD P
        (grpc_channel_stack_init P filters stackBase).stack callBase j
        (by rw [grpc_channel_stack_init_count]; exact hjlen)]
    rw [grpc_channel_stack_init_elem_filter P filters stackBase j hjlen]
  · rw [grpc_channel_stack_init_trace_eq]
    simp only [List.map_map, Function.comp_def]
    exact range_map_getD_id filters
  · rw [grpc_call_stack_init_trace_eq]
    simp only [List.map_map, Function.comp_def,
      grpc_channel_stack_init_count]
    conv_rhs => rw [← range_map_getD_id filters]
    apply List.map_congr_left
    intro j hj
    rw [grpc_channel_stack_init_elem_filter P filters stackBase j
      (List.mem_range.mp hj)]

/-- C8: Element accessor law.  The accessor returns
`header + aligned header size + index * element size`; addresses are
strictly increasing in the index (element size positive), and with a
power-of-two alignment the per-filter channel-data regions assigned by
init do not overlap: region `i` (cursor start plus declared size) ends at
or before region `j` starts, for `i < j < count`. -/
theorem C8_element_accessor (P : Platform)
    (filters : List grpc_channel_filter) (stackBase k i j : Nat)
    (ha : P.GPR_MAX_ALIGNMENT = 2 ^ k)
    (hesz : 0 < P.sizeof_grpc_channel_element)
    (hij : i < j) (hj : j < filters.length) :
    (∀ m : Nat, grpc_channel_stack_element P stackBase m
        = stackBase +
          ROUND_UP_TO_ALIGNMENT_SIZE P P.sizeof_grpc_channel_stack +
          m * P.sizeof_grpc_channel_element) ∧
    grpc_channel_stack_element P stackBase i
        < grpc_channel_stack_element P stackBase j ∧
    ((grpc_channel_stack_init P filters stackBase).stack.elems.getD i
          default).channel_data
        + (filters.getD i default).sizeof_channel_data
      ≤ ((grpc_channel_stack_init P filters stackBase).stack.elems.getD j
          default).channel_data := by
  refine ⟨fun m => rfl, ?_, ?_⟩
  · unfold grpc_channel_stack_element CHANNEL_ELEMS_FROM_STACK
    exact Nat.add_lt_add_left (mul_lt_mul_of_pos_right hij hesz) _
  · have hi' : i < filters.length := Nat.lt_trans hij hj
    rw [grpc_channel_stack_init_channel_data P filters stackBase i hi',
      grpc_channel_stack_init_channel_data P filters stackBase j hj]
    simp only [List.map_take]
    have hstep := sum_take_succ_eq
      (filters.map (fun f =>
        ROUND_UP_TO_ALIGNMENT_SIZE P f.sizeof_channel_data))
      i (by simpa using hi')
    have hmono := sum_take_le_sum_take
      (filters.map (fun f =>
        ROUND_UP_TO_ALIGNMENT_SIZE P f.sizeof_channel_data))
      (i + 1) j (by omega)
    have hgd : (filters.map (fun f =>
        ROUND_UP_TO_ALIGNMENT_SIZE P f.sizeof_channel_data)).getD i 0
        = ROUND_UP_TO_ALIGNMENT_SIZE P
            (filters.getD i default).sizeof_channel_data := by
      rw [List.getD_eq_getElem?_getD, List.getElem?_map,
        List.getElem?_eq_getElem hi',
        List.getD_eq_getElem filters default hi']
      rfl
    rw [hgd] at hstep
    have hle := le_ROUND_UP P k ha
      (filters.getD i default).sizeof_channel_data
    omega

/-- C8 witness: the accessor law on the concrete layout `P64` with the
3-filter list at base 5, indices `i = 0 < j = 1`. -/
theorem C8_element_accessor_witness :
    grpc_channel_stack_element P64 5 0 < grpc_channel_stack_element P64 5 1
      ∧
    ((grpc_channel_stack_init P64 [filterA, filterB, filterC]
          5).stack.elems.getD 0 default).channel_data
        + ([filterA, filterB, filterC].getD 0 default).sizeof_channel_data
      ≤ ((grpc_channel_stack_init P64 [filterA, filterB, filterC]
          5).stack.elems.getD 1 default).channel_data := by
  have h := C8_element_accessor P64 [filterA, filterB, filterC] 5 4 0 1
    rfl (by decide) (by decide) (by decide)
  exact ⟨h.2.1, h.2.2⟩

/-- C9: Status-delivery stub.  `grpc_call_element_recv_status` aborts the
process for every input: it never returns normally and invokes no
transport-operation handler (so all stack state is untouched). -/
theorem C9_recv_status_stub (cur_elem status : Nat) (message : String) :
    (grpc_call_element_recv_status cur_elem status message).aborts = true ∧
    (grpc_call_element_recv_status cur_elem status message).invocations
      = [] :=
  ⟨rfl, rfl⟩

/-- C10: Empty-stack edge case.  With no filters (power-of-two alignment,
positive header size), `grpc_channel_stack_size` returns exactly the
aligned header size, which is positive; `grpc_channel_stack_init` invokes
no hooks, stores `count = 0` and `call_stack_size` = aligned call-stack
header plus aligned empty element table, and both of its fatal assertions
hold. -/
theorem C10_empty_stack (P : Platform) (k stackBase : Nat)
    (ha : P.GPR_MAX_ALIGNMENT = 2 ^ k)
    (hhdr : 0 < P.sizeof_grpc_channel_stack) :
    grpc_channel_stack_size P []
        = ROUND_UP_TO_ALIGNMENT_SIZE P P.sizeof_grpc_channel_stack ∧
    0 < grpc_channel_stack_size P [] ∧
    (grpc_channel_stack_init P [] stackBase).init_trace = [] ∧
    (grpc_channel_stack_init P [] stackBase).stack.count = 0 ∧
    (grpc_channel_stack_init P [] stackBase).stack.call_stack_size
        = ROUND_UP_TO_ALIGNMENT_SIZE P P.sizeof_grpc_call_stack +
          ROUND_UP_TO_ALIGNMENT_SIZE P (0 * P.sizeof_grpc_call_element) ∧
    grpc_channel_stack_init_asserts P [] stackBase := by
  have h0 : ROUND_UP_TO_ALIGNMENT_SIZE P 0 = 0 := ROUND_UP_zero P k ha
  have hsz : grpc_channel_stack_size P []
      = ROUND_UP_TO_ALIGNMENT_SIZE P P.sizeof_grpc_channel_stack := by
    rw [grpc_channel_stack_size_eq]
    simp [h0]
  have hhdr' : 0 < ROUND_UP_TO_ALIGNMENT_SIZE P
      P.sizeof_grpc_channel_stack :=
    Nat.lt_of_lt_of_le hhdr (le_ROUND_UP P k ha _)
  refine ⟨hsz, ?_, ?_, rfl, ?_, ?_⟩
  · rw [hsz]
    exact hhdr'
  · rw [grpc_channel_stack_init_trace_eq]
    simp
  · rw [grpc_channel_stack_init_call_stack_size]
    simp
  · unfold grpc_channel_stack_init_asserts
    constructor
    · rw [grpc_channel_stack_init_user_data_end]
      simp only [List.length_nil, Nat.zero_mul, h0, List.map_nil,
        List.sum_nil, Nat.add_zero]
      omega
    · rw [grpc_channel_stack_init_user_data_end,
        grpc_channel_stack_size_eq]
      omega

/-- C10 witness: the empty-stack law on the concrete layout `P64` at base
address 3. -/
theorem C10_empty_stack_witness :
    grpc_channel_stack_size P64 []
        = ROUND_UP_TO_ALIGNMENT_SIZE P64 P64.sizeof_grpc_channel_stack ∧
    0 < grpc_channel_stack_size P64 [] ∧
    grpc_channel_stack_init_asserts P64 [] 3 := by
  have h := C10_empty_stack P64 4 3 rfl (by decide)
  exact ⟨h.1, h.2.1, h.2.2.2.2.2⟩
